import Mathlib

/-!
# Pokedex catalog viewer (`src/script.js`): embedding and verified properties

The browser script keeps its state in module-level variables (`allPokemon`,
`displayedPokemon`, `currentPage`, `favorites`, `typeCache`) and in two external
holders (the search `<input>` and `localStorage`).  The embedding makes that state
an explicit record and every handler a function on it.

Conventions of the embedding:
* JavaScript strings are Lean `String`s; string primitives work on the list of
  characters (`String.data`).
* `String.prototype.toLowerCase` is the Unicode lower-casing of the host, which is no
  part of the script: every function that calls it takes it as the parameter
  `toLowerCase`, and the theorems hold for whatever function it is.  The samples are
  evaluated with `asciiToLowerCase`, which it equals on ASCII text.
* Identifiers and page numbers are `Nat` (the script never produces a negative or
  fractional one).
* `fetchPokemonData(id)` returns a record or `null`; it is a function
  `Nat → Option Record`.
* The type-effectiveness multipliers are rationals.  The script multiplies IEEE
  doubles by `2`, `0.5` and `0` only, which is exact arithmetic on powers of two
  for fewer than a thousand factors; records carry one or two types.
* A remote call that can throw is an `Except String` value; `try { } catch` is a
  `match` on it.
-/

namespace Pokedex

/-! ## Data model -/

/-- One entry of `stats`: `{ name: s.stat.name, value: s.base_stat }`. -/
structure Stat where
  name : String
  value : Nat
deriving DecidableEq, Repr

/-- The `image` field: `{ default, shiny }`, either of which may be missing. -/
structure Image where
  default : Option String
  shiny : Option String
deriving DecidableEq, Repr

/-- The object built by `fetchPokemonData`. -/
structure Record where
  id : Nat
  name : String
  types : List String
  image : Image
  cry : Option String
  stats : List Stat
  height : Nat
  weight : Nat
  abilities : List String
deriving DecidableEq, Repr

/-- The mutable state of the page: the module-level variables, the value of the
search input, and the `pokemonFavorites` entry of `localStorage` (`none` when the
key is absent). -/
structure State where
  allPokemon : List Record
  displayedPokemon : List Record
  currentPage : Nat
  favorites : List Nat
  searchInput : String
  store : Option (List Nat)
deriving DecidableEq, Repr

def MAX_POKEMON : Nat := 151

def POKEMON_PER_PAGE : Nat := 20

/-- Line 9: `JSON.parse(localStorage.getItem('pokemonFavorites')) || []`. -/
def loadFavorites (store : Option (List Nat)) : List Nat :=
  match store with
  | some favs => favs
  | none => []

/-- The state when the script has been evaluated and no handler has run yet. -/
def initialState (store : Option (List Nat)) : State :=
  { allPokemon := []
    displayedPokemon := []
    currentPage := 1
    favorites := loadFavorites store
    searchInput := ""
    store := store }

/-! ## String primitives -/

/-- The lower-casing of ASCII text: `A`..`Z` become `a`..`z`, every other character is
left as it is.  `String.prototype.toLowerCase` agrees with it on strings of ASCII
characters; it stands for the host function in the samples only. -/
def asciiToLowerCase (s : List Char) : List Char :=
  s.map Char.toLower

/-- The characters stripped by `String.prototype.trim` (WhiteSpace and
LineTerminator of ECMAScript). -/
def isTrimChar (c : Char) : Bool :=
  let n := c.toNat
  n == 0x09 || n == 0x0A || n == 0x0B || n == 0x0C || n == 0x0D || n == 0x20 ||
  n == 0xA0 || n == 0x1680 || (0x2000 ≤ n && n ≤ 0x200A) || n == 0x2028 ||
  n == 0x2029 || n == 0x202F || n == 0x205F || n == 0x3000 || n == 0xFEFF

/-- `String.prototype.trim`. -/
def trim (s : List Char) : List Char :=
  ((s.dropWhile isTrimChar).reverse.dropWhile isTrimChar).reverse

/-- `String.prototype.includes`: `q` occurs in `s` as a contiguous substring. -/
def includes (s q : List Char) : Bool :=
  s.tails.any (fun t => q.isPrefixOf t)

/-- `Number.prototype.toString` on an identifier: its decimal digits. -/
def idToString (id : Nat) : List Char :=
  (Nat.repr id).data

/-! ## Data loading (lines 25-56) -/

/-- The `for` loop of `loadPokemonBatch`:
`for (let i = start; i < start + count && i <= MAX_POKEMON; i++) promises.push(fetchPokemonData(i))`.
`Promise.all` keeps the order of `promises`, so the list of promises is the list of
their results.  The first argument bounds the number of iterations; `none` means
the bound was reached with the loop condition still true. -/
def loadPokemonBatchLoop (fetch : Nat → Option Record) (start count : Nat) :
    Nat → Nat → List (Option Record) → Option (List (Option Record))
  | 0, _, _ => none
  | fuel + 1, i, promises =>
    if i < start + count ∧ i ≤ MAX_POKEMON then
      loadPokemonBatchLoop fetch start count fuel (i + 1) (promises ++ [fetch i])
    else
      some promises

/-- The function `loadPokemonBatch(start, count)`: the non-null results are pushed on
`allPokemon` and `displayedPokemon` becomes a copy of `allPokemon`. -/
def loadPokemonBatch (fetch : Nat → Option Record) (start count : Nat) (s : State) :
    Option State :=
  match loadPokemonBatchLoop fetch start count (count + 1) start [] with
  | none => none
  | some results =>
    let allPokemon := s.allPokemon ++ results.filterMap (fun p => p)
    some { s with allPokemon := allPokemon, displayedPokemon := allPokemon }

/-- The loop of `loadRemainingPokemon`:
`for (let start = POKEMON_PER_PAGE + 1; start <= MAX_POKEMON; start += 10) await loadPokemonBatch(start, 10)`.
The conditional re-render and the pacing delay change no variable of the state. -/
def loadRemainingPokemonLoop (fetch : Nat → Option Record) :
    Nat → Nat → State → Option State
  | 0, _, _ => none
  | fuel + 1, start, s =>
    if start ≤ MAX_POKEMON then
      match loadPokemonBatch fetch start 10 s with
      | none => none
      | some s1 => loadRemainingPokemonLoop fetch fuel (start + 10) s1
    else
      some s

/-- The function `loadRemainingPokemon()`. -/
def loadRemainingPokemon (fetch : Nat → Option Record) (s : State) : Option State :=
  loadRemainingPokemonLoop fetch (MAX_POKEMON + 1) (POKEMON_PER_PAGE + 1) s

/-- The function `loadPokemon()`: the first batch, then `loadRemainingPokemon()`,
which the script starts without awaiting and which runs to its end afterwards. -/
def loadPokemon (fetch : Nat → Option Record) (s : State) : Option State :=
  match loadPokemonBatch fetch 1 POKEMON_PER_PAGE s with
  | none => none
  | some s1 => loadRemainingPokemon fetch s1

/-! ## Search, filter, pagination, favorites (lines 279-347) -/

/-- The predicate of the `filter` in `searchPokemon`:
`p.name.toLowerCase().includes(query) || p.id.toString().includes(query)`. -/
def matchesQuery (toLowerCase : List Char → List Char) (query : List Char) (p : Record) :
    Bool :=
  includes (toLowerCase p.name.data) query || includes (idToString p.id) query

/-- The function `searchPokemon()`; `input` is the value of the search box when the
debounced handler runs. -/
def searchPokemon (toLowerCase : List Char → List Char) (input : String) (s : State) :
    State :=
  let query := trim (toLowerCase input.data)
  { s with
    searchInput := input
    displayedPokemon := s.allPokemon.filter (matchesQuery toLowerCase query)
    currentPage := 1 }

/-- The function `filterByType(type)`. -/
def filterByType (type : String) (s : State) : State :=
  { s with
    searchInput := ""
    displayedPokemon :=
      if type = "all" then s.allPokemon
      else s.allPokemon.filter (fun p => p.types.contains type)
    currentPage := 1 }

/-- The function `nextPage()`. -/
def nextPage (s : State) : State :=
  if s.currentPage * POKEMON_PER_PAGE < s.displayedPokemon.length then
    { s with currentPage := s.currentPage + 1 }
  else s

/-- The function `previousPage()`. -/
def previousPage (s : State) : State :=
  if s.currentPage > 1 then
    { s with currentPage := s.currentPage - 1 }
  else s

/-- The number shown by `updatePagination`:
`Math.ceil(displayedPokemon.length / POKEMON_PER_PAGE) || 1`. -/
def totalPages (s : State) : Nat :=
  let pages := (s.displayedPokemon.length + (POKEMON_PER_PAGE - 1)) / POKEMON_PER_PAGE
  if pages = 0 then 1 else pages

/-- The array update of `toggleFavorite`: `indexOf`, then `push` when the index is
`-1` and `splice(index, 1)` otherwise. -/
def toggleInList (id : Nat) (favorites : List Nat) : List Nat :=
  match favorites.indexOf? id with
  | none => favorites ++ [id]
  | some index => favorites.eraseIdx index

/-- The function `toggleFavorite(id)`: updates `favorites` and overwrites the stored
list. -/
def toggleFavorite (id : Nat) (s : State) : State :=
  let favorites := toggleInList id s.favorites
  { s with favorites := favorites, store := some favorites }

/-- The function `showFavorites()`. -/
def showFavorites (s : State) : State :=
  if s.favorites.length = 0 then s
  else
    { s with
      searchInput := ""
      displayedPokemon := s.allPokemon.filter (fun p => s.favorites.contains p.id)
      currentPage := 1 }

/-- The function `showAllPokemon()`. -/
def showAllPokemon (s : State) : State :=
  { s with searchInput := "", displayedPokemon := s.allPokemon, currentPage := 1 }

/-- The events that change the state: the user-triggered handlers and the arrival of
a background batch. -/
inductive Op where
  | searchPokemon (input : String)
  | filterByType (type : String)
  | showFavorites
  | showAllPokemon
  | nextPage
  | previousPage
  | toggleFavorite (id : Nat)
  | loadPokemonBatch (fetch : Nat → Option Record) (start count : Nat)

/-- One event applied to a state. -/
def step (toLowerCase : List Char → List Char) (op : Op) (s : State) : Option State :=
  match op with
  | .searchPokemon input => some (searchPokemon toLowerCase input s)
  | .filterByType type => some (filterByType type s)
  | .showFavorites => some (showFavorites s)
  | .showAllPokemon => some (showAllPokemon s)
  | .nextPage => some (nextPage s)
  | .previousPage => some (previousPage s)
  | .toggleFavorite id => some (toggleFavorite id s)
  | .loadPokemonBatch fetch start count => loadPokemonBatch fetch start count s

/-- A sequence of events applied in order. -/
def run (toLowerCase : List Char → List Char) : List Op → State → Option State
  | [], s => some s
  | op :: ops, s =>
    match step toLowerCase op s with
    | none => none
    | some s1 => run toLowerCase ops s1

/-! ## Type effectiveness (lines 220-259) -/

/-- The payload `data.damage_relations` of a type resource; each list holds the
`name` of its entries. -/
structure DamageRelations where
  double_damage_from : List String
  half_damage_from : List String
  no_damage_from : List String
deriving DecidableEq, Repr

/-- The constant array `allTypes` of `calculateTypeEffectiveness`. -/
def allTypes : List String :=
  ["normal", "fire", "water", "grass", "electric", "ice", "fighting", "poison",
   "ground", "flying", "psychic", "bug", "rock", "ghost", "dragon", "dark", "steel",
   "fairy"]

/-- The body of `allRelations.forEach(relation => ...)`: three independent `if`s,
each multiplying the running `multiplier`. -/
def applyRelation (type : String) (multiplier : ℚ) (relation : DamageRelations) : ℚ :=
  let m1 := if relation.double_damage_from.any (fun t => t == type) then multiplier * 2
            else multiplier
  let m2 := if relation.half_damage_from.any (fun t => t == type) then m1 * (1 / 2)
            else m1
  if relation.no_damage_from.any (fun t => t == type) then m2 * 0 else m2

/-- The value of `multiplier` for one attacking type after the inner `forEach`. -/
def typeMultiplier (allRelations : List DamageRelations) (type : String) : ℚ :=
  allRelations.foldl (applyRelation type) 1

/-- Assignment `obj[key] = value` on an object seen as its entries in insertion
order: an existing key keeps its place. -/
def objSet (obj : List (String × ℚ)) (key : String) (value : ℚ) : List (String × ℚ) :=
  match obj with
  | [] => [(key, value)]
  | (k, v) :: rest =>
    if k = key then (k, value) :: rest else (k, v) :: objSet rest key value

/-- Property read `obj[key]`; `none` is `undefined`. -/
def objGet (obj : List (String × ℚ)) (key : String) : Option ℚ :=
  match obj with
  | [] => none
  | (k, v) :: rest => if k = key then some v else objGet rest key

/-- `Object.keys(obj)`. -/
def objKeys (obj : List (String × ℚ)) : List String :=
  obj.map (fun e => e.1)

/-- The object `effectiveness` after `allTypes.forEach`: a type is entered when its
multiplier is not `1`. -/
def effectivenessObject (allRelations : List DamageRelations) : List (String × ℚ) :=
  allTypes.foldl
    (fun effectiveness type =>
      let multiplier := typeMultiplier allRelations type
      if multiplier ≠ 1 then objSet effectiveness type multiplier else effectiveness)
    []

/-- The object returned by `calculateTypeEffectiveness`. -/
structure Effectiveness where
  weaknesses : List String
  resistances : List String
  immunities : List String
deriving DecidableEq, Repr

/-- The callbacks `t => effectiveness[t] >= 2` (and the two others) of the filters over
`Object.keys(effectiveness)`; `pred` is the comparison, false on `undefined`. -/
def testEntry (effectiveness : List (String × ℚ)) (pred : ℚ → Bool) (t : String) : Bool :=
  match objGet effectiveness t with
  | some m => pred m
  | none => false

/-- Lines 241-258 of `calculateTypeEffectiveness`: the part after the relations have
been obtained. -/
def effectivenessOfRelations (allRelations : List DamageRelations) : Effectiveness :=
  let effectiveness := effectivenessObject allRelations
  { weaknesses :=
      (objKeys effectiveness).filter (testEntry effectiveness (fun m => decide (m ≥ 2)))
    resistances :=
      (objKeys effectiveness).filter (testEntry effectiveness (fun m => decide (m > 0 ∧ m < 1)))
    immunities :=
      (objKeys effectiveness).filter (testEntry effectiveness (fun m => decide (m = 0))) }

/-- The `Map` `typeCache`, as its entries.  A value is what `data.damage_relations`
was when it was stored: the relations, or `none` for `undefined`. -/
abbrev TypeCache := List (String × Option DamageRelations)

/-- `typeCache.get(type)`; the outer `none` is `typeCache.has(type)` being false. -/
def cacheGet (typeCache : TypeCache) (type : String) : Option (Option DamageRelations) :=
  match typeCache with
  | [] => none
  | (k, v) :: rest => if k = type then some v else cacheGet rest type

/-- `typeCache.set(type, relations)`. -/
def cacheSet (typeCache : TypeCache) (type : String) (relations : Option DamageRelations) :
    TypeCache :=
  match typeCache with
  | [] => [(type, relations)]
  | (k, v) :: rest =>
    if k = type then (k, relations) :: rest else (k, v) :: cacheSet rest type relations

/-- One callback of `types.map(async type => ...)`.  Every callback tests
`typeCache.has(type)` before any fetch has completed, that is against the cache as it
was when `calculateTypeEffectiveness` was called (`initial`).  `fetchType` is
`fetch` followed by `res.json()` and the read of `data.damage_relations`: an error
when the fetch or `json()` rejects or `data` is not an object; `none` when the body
is an object without `damage_relations`, which the script accepts from a response of
any status since it does not test `res.ok`; the relations otherwise.  Whatever was
read is stored in the cache and returned. -/
def lookupType (fetchType : String → Except String (Option DamageRelations))
    (initial : TypeCache) (typeCache : TypeCache) (type : String) :
    TypeCache × Except String (Option DamageRelations) :=
  match cacheGet initial type with
  | some relations => (typeCache, .ok relations)
  | none =>
    match fetchType type with
    | .ok relations => (cacheSet typeCache type relations, .ok relations)
    | .error e => (typeCache, .error e)

/-- All callbacks of `types.map(async type => ...)`, with the cache they leave. -/
def lookupTypes (fetchType : String → Except String (Option DamageRelations))
    (initial : TypeCache) :
    TypeCache → List String → TypeCache × List (Except String (Option DamageRelations))
  | typeCache, [] => (typeCache, [])
  | typeCache, type :: types =>
    let r := lookupType fetchType initial typeCache type
    let rs := lookupTypes fetchType initial r.1 types
    (rs.1, r.2 :: rs.2)

/-- `Promise.all`: the list of values, or a rejection when a promise rejected. -/
def promiseAll : List (Except String (Option DamageRelations)) →
    Except String (List (Option DamageRelations))
  | [] => .ok []
  | .error e :: _ => .error e
  | .ok r :: rest =>
    match promiseAll rest with
    | .ok rs => .ok (r :: rs)
    | .error e => .error e

/-- The relations when every element of `allRelations` is one; `none` when an element
is `undefined`, on which `relation.double_damage_from` throws a `TypeError` in the
first pass of `allTypes.forEach`. -/
def definedRelations : List (Option DamageRelations) → Option (List DamageRelations)
  | [] => some []
  | none :: _ => none
  | some r :: rest =>
    match definedRelations rest with
    | some rs => some (r :: rs)
    | none => none

/-- The function `calculateTypeEffectiveness(types)`: the cache afterwards, and the
value the returned promise settles with. -/
def calculateTypeEffectiveness (fetchType : String → Except String (Option DamageRelations))
    (typeCache : TypeCache) (types : List String) : TypeCache × Except String Effectiveness :=
  let looked := lookupTypes fetchType typeCache typeCache types
  match promiseAll looked.2 with
  | .ok allRelations =>
    match definedRelations allRelations with
    | some relations => (looked.1, .ok (effectivenessOfRelations relations))
    | none => (looked.1, .error "TypeError")
  | .error e => (looked.1, .error e)

/-- How the promise returned by an `async` function settles. -/
inductive Settled where
  | fulfilled
  | rejected (reason : String)
deriving DecidableEq, Repr

/-- What the element `typeEffectivenessContent` shows: the placeholder
"Loading matchups...", the sections that are not empty, or
"This Pokémon has no special type matchups.". -/
inductive TypeMatchupsContent where
  | loading
  | matchups (weaknesses resistances immunities : List String)
  | noSpecialMatchups
deriving DecidableEq, Repr

/-- The outcome of `renderTypeEffectiveness`. -/
structure TypeRender where
  typeCache : TypeCache
  content : TypeMatchupsContent
  settled : Settled
deriving DecidableEq, Repr

/-- The function `renderTypeEffectiveness(types)`.  The element shows
"Loading matchups..." when it is called (set by `showPokemonDetails`).  There is no
`try`: a rejection of `calculateTypeEffectiveness` rejects the returned promise and
the element is not written. -/
def renderTypeEffectiveness (fetchType : String → Except String (Option DamageRelations))
    (typeCache : TypeCache) (types : List String) : TypeRender :=
  match calculateTypeEffectiveness fetchType typeCache types with
  | (typeCache1, .ok effectiveness) =>
    let content :=
      if effectiveness.weaknesses.length = 0 ∧ effectiveness.resistances.length = 0 ∧
          effectiveness.immunities.length = 0 then
        TypeMatchupsContent.noSpecialMatchups
      else
        TypeMatchupsContent.matchups effectiveness.weaknesses effectiveness.resistances
          effectiveness.immunities
    { typeCache := typeCache1, content := content, settled := Settled.fulfilled }
  | (typeCache1, .error e) =>
    { typeCache := typeCache1, content := TypeMatchupsContent.loading, settled := Settled.rejected e }

/-! ## Evolution chain (lines 184-218) -/

/-- A node of the evolution-chain resource: `{ species: { name }, evolves_to: [...] }`. -/
inductive ChainLink where
  | mk (species : String) (evolves_to : List ChainLink)
deriving Repr

/-- The payload of the species resource: the `url` of `evolution_chain`, `none` when
`evolution_chain` is `null`. -/
structure SpeciesData where
  evolution_chain : Option String
deriving DecidableEq, Repr

/-- The loop
`while (current) { chain.push(current.species.name); current = current.evolves_to[0]; }`
entered with `current` a node and `chain` the names pushed so far. -/
def walkChain : ChainLink → List String → List String
  | .mk species [], chain => chain ++ [species]
  | .mk species (next :: _), chain => walkChain next (chain ++ [species])

/-- A piece of the markup written for a chain: the card of a record, or the arrow
`→` that `join` puts between two entries. -/
inductive EvolutionPiece where
  | card (p : Record)
  | arrow
deriving DecidableEq, Repr

/-- What the element `evolutionContent` shows. -/
inductive EvolutionContent where
  | loading
  | chain (pieces : List EvolutionPiece)
  | doesNotEvolve (name : String)
  | couldNotLoad
deriving DecidableEq, Repr

/-- The callback of `chain.map(name => ...)`: the card of the first record with that
name, the empty string when there is none. -/
def evolutionCard (allPokemon : List Record) (name : String) : List EvolutionPiece :=
  match allPokemon.find? (fun p => p.name = name) with
  | none => []
  | some p => [EvolutionPiece.card p]

/-- The `try` block of `renderEvolutionChain(id)`: the content it writes, or the
exception it throws.  `fetchSpecies` and `fetchChain` are the two remote calls with
their `ok` test and `json()`. -/
def renderEvolutionChainTry (fetchSpecies : Nat → Except String SpeciesData)
    (fetchChain : String → Except String ChainLink) (allPokemon : List Record) (id : Nat) :
    Except String EvolutionContent :=
  match fetchSpecies id with
  | .error e => .error e
  | .ok speciesData =>
    match speciesData.evolution_chain with
    | none => .error "TypeError"
    | some url =>
      match fetchChain url with
      | .error e => .error e
      | .ok root =>
        let chain := walkChain root []
        if chain.length > 1 then
          .ok (EvolutionContent.chain
            (List.intercalate [EvolutionPiece.arrow] (chain.map (evolutionCard allPokemon))))
        else
          match allPokemon.find? (fun p => p.id = id) with
          | none => .error "TypeError"
          | some p => .ok (EvolutionContent.doesNotEvolve p.name)

/-- The outcome of `renderEvolutionChain`. -/
structure EvolutionRender where
  content : EvolutionContent
  settled : Settled
deriving DecidableEq, Repr

/-- The function `renderEvolutionChain(id)`: the `catch` writes
"Could not load evolution data." and the promise is fulfilled either way. -/
def renderEvolutionChain (fetchSpecies : Nat → Except String SpeciesData)
    (fetchChain : String → Except String ChainLink) (allPokemon : List Record) (id : Nat) :
    EvolutionRender :=
  match renderEvolutionChainTry fetchSpecies fetchChain allPokemon id with
  | .ok content => { content := content, settled := Settled.fulfilled }
  | .error _ => { content := EvolutionContent.couldNotLoad, settled := Settled.fulfilled }

/-- The two derivations started by `showPokemonDetails`. -/
structure DetailView where
  pokemon : Record
  evolution : EvolutionRender
  typeMatchups : TypeRender
deriving DecidableEq, Repr

/-- The function `showPokemonDetails(id)`: nothing happens when no loaded record has
the identifier; otherwise both derivations run, each on its own. -/
def showPokemonDetails (fetchSpecies : Nat → Except String SpeciesData)
    (fetchChain : String → Except String ChainLink)
    (fetchType : String → Except String (Option DamageRelations))
    (typeCache : TypeCache) (allPokemon : List Record) (id : Nat) : Option DetailView :=
  match allPokemon.find? (fun p => p.id = id) with
  | none => none
  | some pokemon =>
    some
      { pokemon := pokemon
        evolution := renderEvolutionChain fetchSpecies fetchChain allPokemon pokemon.id
        typeMatchups := renderTypeEffectiveness fetchType typeCache pokemon.types }

/-! ## Specification-side definitions

The definitions of this section follow the wording of the specification, not the
script; the theorems compare them with the embedding above. -/

/-- The factor one relation contributes for an attacking type, as the specification
words it: `2` if listed in "double damage from", `1/2` if in "half damage from", `0`
if in "no damage from", each `1` otherwise, compounding. -/
def relationFactorSpec (type : String) (relation : DamageRelations) : ℚ :=
  (if type ∈ relation.double_damage_from then 2 else 1) *
  (if type ∈ relation.half_damage_from then 1 / 2 else 1) *
  (if type ∈ relation.no_damage_from then 0 else 1)

/-- The multiplier as the specification words it: the product of the factors of the
relations of the record. -/
def typeMultiplierSpec (allRelations : List DamageRelations) (type : String) : ℚ :=
  (allRelations.map (relationFactorSpec type)).prod

/-- The projection of a search as the specification words it, on the query as typed:
the records whose name contains the query ignoring case or whose decimal id string
contains the query. -/
def searchProjectionSpec (toLowerCase : List Char → List Char) (catalog : List Record)
    (query : String) : List Record :=
  catalog.filter (fun p =>
    includes (toLowerCase p.name.data) (toLowerCase query.data) ||
    includes (idToString p.id) query.data)

/-- The species names on the first-branch path from a node, as the specification
words it: the node, then the path of its first successor while there is one. -/
def firstBranchPath : ChainLink → List String
  | .mk species [] => [species]
  | .mk species (next :: _) => species :: firstBranchPath next

/-! ## Auxiliary definitions of the proofs -/

/-- The string `searchPokemon` matches against: the input lower-cased, then trimmed. -/
def normalizedQuery (toLowerCase : List Char → List Char) (input : String) : List Char :=
  trim (toLowerCase input.data)

/-- The invariant of the view state: the page number is within the page count, and
the projection is no longer than the catalog. -/
def ViewInv (s : State) : Prop :=
  1 ≤ s.currentPage ∧ s.currentPage ≤ totalPages s ∧
    s.displayedPokemon.length ≤ s.allPokemon.length

/-- A multiplier is zero, a power of two, or the inverse of a power of two. -/
def Dyadic (m : ℚ) : Prop :=
  m = 0 ∨ ∃ n : Nat, m = 2 ^ n ∨ m = 1 / 2 ^ n

/-- The entry the body of `allTypes.forEach` makes for a type, if any. -/
def effectivenessEntry (allRelations : List DamageRelations) (type : String) :
    Option (String × ℚ) :=
  if typeMultiplier allRelations type ≠ 1 then some (type, typeMultiplier allRelations type)
  else none

/-- The call `toggleFavorite(id)` made `n` times in a row. -/
def toggleTimes (id : Nat) : Nat → State → State
  | 0, s => s
  | n + 1, s => toggleTimes id n (toggleFavorite id s)

/-! ## Sample data -/

/-- A record with the given identifier, name and types, the other fields fixed. -/
def sampleRecord (id : Nat) (name : String) (types : List String) : Record :=
  { id := id, name := name, types := types
    image := { default := some "front_default.png", shiny := none }
    cry := none
    stats := [{ name := "hp", value := 45 }], height := 7, weight := 69
    abilities := ["overgrow"] }

def bulbasaur : Record := sampleRecord 1 "bulbasaur" ["grass", "poison"]

def ivysaur : Record := sampleRecord 2 "ivysaur" ["grass", "poison"]

def venusaur : Record := sampleRecord 3 "venusaur" ["grass", "poison"]

def charmander : Record := sampleRecord 4 "charmander" ["fire"]

def pikachu : Record := sampleRecord 25 "pikachu" ["electric"]

def tauros : Record := sampleRecord 128 "tauros" ["normal"]

/-- A remote source on which the fetches of six identifiers succeed and all others
fail. -/
def sampleFetch (id : Nat) : Option Record :=
  if id = 1 then some bulbasaur
  else if id = 2 then some ivysaur
  else if id = 3 then some venusaur
  else if id = 4 then some charmander
  else if id = 25 then some pikachu
  else if id = 128 then some tauros
  else none

/-- The catalog after a full load from `sampleFetch`. -/
def sampleCatalog : List Record :=
  [bulbasaur, ivysaur, venusaur, charmander, pikachu, tauros]

/-- A state whose catalog holds `pikachu` only. -/
def pikachuOnly : State :=
  { initialState none with allPokemon := [pikachu] }

/-- A state showing the whole sample catalog on its single page. -/
def sampleView : State :=
  { initialState none with allPokemon := sampleCatalog, displayedPokemon := sampleCatalog }

/-- The damage relations of the type `fire`. -/
def fireRelations : DamageRelations :=
  { double_damage_from := ["ground", "rock", "water"]
    half_damage_from := ["bug", "steel", "fire", "grass", "ice", "fairy"]
    no_damage_from := [] }

/-- The damage relations of the type `flying`. -/
def flyingRelations : DamageRelations :=
  { double_damage_from := ["rock", "electric", "ice"]
    half_damage_from := ["fighting", "bug", "grass"]
    no_damage_from := ["ground"] }

/-- The three-stage chain of `bulbasaur`. -/
def bulbasaurChain : ChainLink :=
  .mk "bulbasaur" [.mk "ivysaur" [.mk "venusaur" []]]

/-- The single-stage chain of `tauros`. -/
def taurosChain : ChainLink :=
  .mk "tauros" []

/-- Species resources for the sample catalog. -/
def sampleFetchSpecies (id : Nat) : Except String SpeciesData :=
  if id = 128 then .ok { evolution_chain := some "evolution-chain/65" }
  else if id ≤ 3 then .ok { evolution_chain := some "evolution-chain/1" }
  else .error "Species not found"

/-- Evolution-chain resources for the sample catalog. -/
def sampleFetchChain (url : String) : Except String ChainLink :=
  if url = "evolution-chain/1" then .ok bulbasaurChain
  else if url = "evolution-chain/65" then .ok taurosChain
  else .error "Evolution chain not found"

/-- A type resource that cannot be fetched. -/
def failingFetchType (_type : String) : Except String (Option DamageRelations) :=
  .error "NetworkError"

/-- A type resource answered by an error response whose JSON body has no
`damage_relations`. -/
def errorBodyFetchType (_type : String) : Except String (Option DamageRelations) :=
  .ok none

/-- A type resource that answers with the relations of `fire`. -/
def fireFetchType (_type : String) : Except String (Option DamageRelations) :=
  .ok (some fireRelations)

/-- A species resource that cannot be fetched. -/
def failingFetchSpecies (_id : Nat) : Except String SpeciesData :=
  .error "Species not found"

/-- An evolution-chain resource that cannot be fetched. -/
def failingFetchChain (_url : String) : Except String ChainLink :=
  .error "Evolution chain not found"

/-! ## Theorems -/

theorem loadPokemonBatchLoop_eq (fetch : Nat → Option Record) (start count : Nat) :
    ∀ (fuel i : Nat) (promises : List (Option Record)),
      min (start + count) (MAX_POKEMON + 1) - i < fuel →
      loadPokemonBatchLoop fetch start count fuel i promises =
        some (promises ++
          (List.range' i (min (start + count) (MAX_POKEMON + 1) - i)).map fetch) := by
  intro fuel
  induction fuel with
  | zero => intro i promises h; omega
  | succ fuel ih =>
    intro i promises h
    unfold loadPokemonBatchLoop
    by_cases hc : i < start + count ∧ i ≤ MAX_POKEMON
    · rw [if_pos hc, ih (i + 1) _ (by omega)]
      obtain ⟨n, hn⟩ : ∃ n, min (start + count) (MAX_POKEMON + 1) - i = n + 1 :=
        ⟨min (start + count) (MAX_POKEMON + 1) - i - 1, by omega⟩
      have hn1 : min (start + count) (MAX_POKEMON + 1) - (i + 1) = n := by omega
      rw [hn, hn1]
      simp [List.range'_succ]
    · rw [if_neg hc]
      have h0 : min (start + count) (MAX_POKEMON + 1) - i = 0 := by omega
      simp [h0]

/-- The identifiers requested by `loadPokemonBatch(start, count)`. -/
theorem loadPokemonBatch_eq (fetch : Nat → Option Record) (start count : Nat) (s : State) :
    loadPokemonBatch fetch start count s =
      some { s with
        allPokemon := s.allPokemon ++
          (List.range' start (min (start + count) (MAX_POKEMON + 1) - start)).filterMap fetch
        displayedPokemon := s.allPokemon ++
          (List.range' start (min (start + count) (MAX_POKEMON + 1) - start)).filterMap fetch } := by
  unfold loadPokemonBatch
  rw [loadPokemonBatchLoop_eq fetch start count (count + 1) start [] (by omega)]
  simp [List.filterMap_map]
  rfl

theorem loadRemainingPokemonLoop_eq (fetch : Nat → Option Record) :
    ∀ (fuel start : Nat) (s : State),
      MAX_POKEMON + 1 - start < fuel → POKEMON_PER_PAGE + 1 ≤ start →
      ∃ s1, loadRemainingPokemonLoop fetch fuel start s = some s1 ∧
        s1.allPokemon = s.allPokemon ++
          (List.range' start (MAX_POKEMON + 1 - start)).filterMap fetch ∧
        s1.currentPage = s.currentPage ∧ s1.favorites = s.favorites ∧ s1.store = s.store := by
  intro fuel
  induction fuel with
  | zero => intro start s h; omega
  | succ fuel ih =>
    intro start s h hs
    unfold loadRemainingPokemonLoop
    by_cases hc : start ≤ MAX_POKEMON
    · rw [if_pos hc, loadPokemonBatch_eq]
      simp only
      obtain ⟨s1, h1, h2, h3⟩ := ih (start + 10) _ (by omega) (by omega)
      refine ⟨s1, h1, ?_, h3⟩
      rw [h2]
      simp only [List.append_assoc, ← List.filterMap_append]
      congr 2
      by_cases hlt : start + 10 ≤ MAX_POKEMON + 1
      · have e1 : min (start + 10) (MAX_POKEMON + 1) - start = 10 := by omega
        generalize hk : MAX_POKEMON + 1 - (start + 10) = k
        have e2 : MAX_POKEMON + 1 - start = k + 10 := by omega
        rw [e1, e2, List.range'_append_1]
      · have e1 : min (start + 10) (MAX_POKEMON + 1) - start = MAX_POKEMON + 1 - start := by
          omega
        have e2 : MAX_POKEMON + 1 - (start + 10) = 0 := by omega
        rw [e1, e2]
        simp
    · rw [if_neg hc]
      have h0 : MAX_POKEMON + 1 - start = 0 := by omega
      exact ⟨s, rfl, by simp [h0], rfl, rfl, rfl⟩

theorem loadPokemon_eq (fetch : Nat → Option Record) (s : State) :
    ∃ s1, loadPokemon fetch s = some s1 ∧
      s1.allPokemon = s.allPokemon ++ (List.range' 1 MAX_POKEMON).filterMap fetch ∧
      s1.currentPage = s.currentPage ∧ s1.favorites = s.favorites ∧ s1.store = s.store := by
  unfold loadPokemon
  rw [loadPokemonBatch_eq]
  simp only
  unfold loadRemainingPokemon
  obtain ⟨s1, h1, h2, h3⟩ := loadRemainingPokemonLoop_eq fetch (MAX_POKEMON + 1)
    (POKEMON_PER_PAGE + 1)
    { s with
      allPokemon := s.allPokemon ++
        (List.range' 1 (min (1 + POKEMON_PER_PAGE) (MAX_POKEMON + 1) - 1)).filterMap fetch
      displayedPokemon := s.allPokemon ++
        (List.range' 1 (min (1 + POKEMON_PER_PAGE) (MAX_POKEMON + 1) - 1)).filterMap fetch }
    (by unfold MAX_POKEMON POKEMON_PER_PAGE; omega) (le_refl _)
  refine ⟨s1, h1, ?_, h3⟩
  rw [h2]
  simp only [List.append_assoc, ← List.filterMap_append]
  congr 2

theorem filterMap_fetch_filter_id (fetch : Nat → Option Record)
    (hid : ∀ id r, fetch id = some r → r.id = id) (id : Nat) :
    ∀ ids : List Nat, ids.Nodup →
      (ids.filterMap fetch).filter (fun p => p.id = id) =
        if id ∈ ids then (fetch id).toList else [] := by
  intro ids
  induction ids with
  | nil => intro _; simp
  | cons a ids ih =>
    intro hnd
    rw [List.nodup_cons] at hnd
    have ih1 := ih hnd.2
    cases hfa : fetch a with
    | none =>
      rw [List.filterMap_cons_none hfa, ih1]
      by_cases ha : id = a
      · subst ha; simp [hnd.1, hfa]
      · simp [ha]
    | some r =>
      rw [List.filterMap_cons_some hfa, List.filter_cons, ih1]
      have hr := hid a r hfa
      by_cases ha : id = a
      · subst ha; simp [hr, hnd.1, hfa]
      · have : ¬ r.id = id := by rw [hr]; exact fun h => ha h.symm
        simp [this, ha]

theorem filterMap_fetch_pairwise (fetch : Nat → Option Record)
    (hid : ∀ id r, fetch id = some r → r.id = id) :
    ∀ ids : List Nat, ids.Pairwise (fun a b => a < b) →
      (ids.filterMap fetch).Pairwise (fun p q => p.id < q.id) := by
  intro ids hp
  rw [List.pairwise_filterMap]
  refine hp.imp ?_
  intro a b hab p hp q hq
  have h1 := hid a p (by simpa using hp)
  have h2 := hid b q (by simpa using hq)
  omega

/-- Claim C1: with every fetch a function from the requested id to a failure or a
record carrying that id, `loadPokemon` (first batch of ids 1..20, then the batches of
ten from 21, the last one holding id 151 only) run from the empty catalog returns a
state in which `allPokemon` holds exactly one record for each id of 1..151 whose fetch
succeeded (the fetched one), no record for an id whose fetch failed, and is strictly
ascending by id. -/
theorem C1_catalog_after_full_load (fetch : Nat → Option Record)
    (hid : ∀ id r, fetch id = some r → r.id = id) (store : Option (List Nat)) :
    ∃ s, loadPokemon fetch (initialState store) = some s ∧
      (∀ id r, 1 ≤ id → id ≤ 151 → fetch id = some r →
        s.allPokemon.filter (fun p => p.id = id) = [r]) ∧
      (∀ id, fetch id = none → ∀ p ∈ s.allPokemon, p.id ≠ id) ∧
      s.allPokemon.Pairwise (fun p q => p.id < q.id) := by
  obtain ⟨s, hs, hall, _⟩ := loadPokemon_eq fetch (initialState store)
  have hall1 : s.allPokemon = (List.range' 1 MAX_POKEMON).filterMap fetch := by
    rw [hall]; rfl
  refine ⟨s, hs, ?_, ?_, ?_⟩
  · intro id r h1 h2 hf
    rw [hall1, filterMap_fetch_filter_id fetch hid id _ (List.nodup_range' 1 MAX_POKEMON)]
    have hm : id ∈ List.range' 1 MAX_POKEMON := by
      rw [List.mem_range'_1]; unfold MAX_POKEMON; omega
    rw [if_pos hm, hf]; rfl
  · intro id hf p hp hpid
    rw [hall1, List.mem_filterMap] at hp
    obtain ⟨a, _, ha⟩ := hp
    have := hid a p ha
    rw [← hpid, this, ha] at hf
    cases hf
  · rw [hall1]
    apply filterMap_fetch_pairwise fetch hid
    exact List.pairwise_lt_range' 1 MAX_POKEMON

/-- Witness of C1 on `sampleFetch`: the hypothesis holds there, and the catalog after
the load is the six fetched records in ascending order. -/
theorem C1_sample_load_witness :
    (∃ s, loadPokemon sampleFetch (initialState none) = some s ∧
      (∀ id r, 1 ≤ id → id ≤ 151 → sampleFetch id = some r →
        s.allPokemon.filter (fun p => p.id = id) = [r]) ∧
      (∀ id, sampleFetch id = none → ∀ p ∈ s.allPokemon, p.id ≠ id) ∧
      s.allPokemon.Pairwise (fun p q => p.id < q.id)) ∧
    (loadPokemon sampleFetch (initialState none)).map (fun s => s.allPokemon)
      = some sampleCatalog :=
  ⟨C1_catalog_after_full_load sampleFetch
      (by
        intro id r h
        unfold sampleFetch at h
        split_ifs at h <;> simp only [Option.some.injEq] at h <;> subst h <;> simp_all <;> rfl)
      none,
   by decide⟩

/-- Claim C2, evaluated on the script: after the first batch, `filterByType("grass")`
shows the three grass records; the next background batch (ids 21..30, which brings
`pikachu`) replaces the projection by the whole catalog, so it then holds `charmander`
and `pikachu`, neither of which has the type `grass`. -/
theorem C2_batch_discards_type_filter :
    (run asciiToLowerCase [Op.loadPokemonBatch sampleFetch 1 20, Op.filterByType "grass"]
        (initialState none)).map (fun s => s.displayedPokemon)
      = some [bulbasaur, ivysaur, venusaur] ∧
    (run asciiToLowerCase [Op.loadPokemonBatch sampleFetch 1 20, Op.filterByType "grass",
          Op.loadPokemonBatch sampleFetch 21 10]
        (initialState none)).map (fun s => s.displayedPokemon)
      = some [bulbasaur, ivysaur, venusaur, charmander, pikachu] ∧
    "grass" ∉ charmander.types ∧ "grass" ∉ pikachu.types := by
  decide

/-- Claim C10, evaluated on the script: when the fetch of the type `fire` fails,
`renderTypeEffectiveness` leaves the placeholder "Loading matchups..." in place and
its promise is rejected with the failure (nothing catches it); the cache gets no entry.
When the species fetch fails, `renderEvolutionChain` writes "Could not load evolution
data." and its promise is fulfilled.  When the type resource is answered by an error
response whose JSON body has no `damage_relations`, the rejection is again not caught,
`undefined` is stored in the cache under `fire`, and a later call fails on that entry
without fetching, even though the resource can be fetched by then. -/
theorem C10_type_fetch_failure_is_not_caught :
    renderTypeEffectiveness failingFetchType [] ["fire"] =
      { typeCache := [], content := TypeMatchupsContent.loading,
        settled := Settled.rejected "NetworkError" } ∧
    renderEvolutionChain failingFetchSpecies failingFetchChain [charmander] 4 =
      { content := EvolutionContent.couldNotLoad, settled := Settled.fulfilled } ∧
    renderTypeEffectiveness errorBodyFetchType [] ["fire"] =
      { typeCache := [("fire", none)], content := TypeMatchupsContent.loading,
        settled := Settled.rejected "TypeError" } ∧
    renderTypeEffectiveness fireFetchType [("fire", none)] ["fire"] =
      { typeCache := [("fire", none)], content := TypeMatchupsContent.loading,
        settled := Settled.rejected "TypeError" } := by
  decide

/-- The function `renderEvolutionChain` never rejects, and a failure of either remote
call gives "Could not load evolution data.". -/
theorem renderEvolutionChain_catches
    (fetchSpecies : Nat → Except String SpeciesData)
    (fetchChain : String → Except String ChainLink) (allPokemon : List Record) (id : Nat) :
    (renderEvolutionChain fetchSpecies fetchChain allPokemon id).settled = Settled.fulfilled ∧
    (∀ e, fetchSpecies id = .error e →
      (renderEvolutionChain fetchSpecies fetchChain allPokemon id).content =
        EvolutionContent.couldNotLoad) ∧
    (∀ url e, fetchSpecies id = .ok { evolution_chain := some url } →
      fetchChain url = .error e →
      (renderEvolutionChain fetchSpecies fetchChain allPokemon id).content =
        EvolutionContent.couldNotLoad) := by
  refine ⟨?_, ?_, ?_⟩
  · unfold renderEvolutionChain
    split <;> rfl
  · intro e h
    simp [renderEvolutionChain, renderEvolutionChainTry, h]
  · intro url e h1 h2
    simp [renderEvolutionChain, renderEvolutionChainTry, h1, h2]

theorem cacheGet_cacheSet_ne (type key : String) (relations : Option DamageRelations)
    (hne : key ≠ type) :
    ∀ typeCache : TypeCache, cacheGet (cacheSet typeCache key relations) type
      = cacheGet typeCache type := by
  intro typeCache
  induction typeCache with
  | nil => simp [cacheSet, cacheGet, hne]
  | cons e rest ih =>
    obtain ⟨k, v⟩ := e
    by_cases hk : k = key
    · subst hk
      simp [cacheSet, cacheGet, hne]
    · by_cases hk2 : k = type
      · subst hk2
        simp [cacheSet, cacheGet, hk]
      · simp [cacheSet, cacheGet, hk, hk2, ih]

theorem lookupTypes_failed (fetchType : String → Except String (Option DamageRelations))
    (initial : TypeCache) (t : String) (e : String) (hfail : fetchType t = .error e) :
    ∀ (types : List String) (typeCache : TypeCache),
      cacheGet (lookupTypes fetchType initial typeCache types).1 t = cacheGet typeCache t ∧
      (t ∈ types → cacheGet initial t = none →
        ∃ e1, promiseAll (lookupTypes fetchType initial typeCache types).2 = .error e1) := by
  intro types
  induction types with
  | nil => intro typeCache; simp [lookupTypes]
  | cons a types ih =>
    intro typeCache
    simp only [lookupTypes]
    obtain ⟨ih1, ih2⟩ := ih (lookupType fetchType initial typeCache a).1
    have hstep : cacheGet (lookupType fetchType initial typeCache a).1 t = cacheGet typeCache t := by
      unfold lookupType
      cases hc : cacheGet initial a with
      | some r => rfl
      | none =>
        cases hf : fetchType a with
        | error e2 => rfl
        | ok r =>
          simp only
          apply cacheGet_cacheSet_ne
          intro hat
          rw [hat, hfail] at hf
          cases hf
    refine ⟨ih1.trans hstep, ?_⟩
    intro hmem hinit
    cases hr : (lookupType fetchType initial typeCache a).2 with
    | error e2 => exact ⟨e2, by simp [promiseAll]⟩
    | ok r =>
      have hat : a ≠ t := by
        intro hat
        subst hat
        simp [lookupType, hinit, hfail] at hr
      have hm : t ∈ types := by
        rcases List.mem_cons.mp hmem with h | h
        · exact absurd h.symm hat
        · exact h
      obtain ⟨e1, he1⟩ := ih2 hm hinit
      exact ⟨e1, by simp [promiseAll, he1]⟩

/-- When the fetch or `json()` of an uncached type rejects, `renderTypeEffectiveness`
rejects, leaves the placeholder, and stores nothing under that type. -/
theorem renderTypeEffectiveness_failure
    (fetchType : String → Except String (Option DamageRelations)) (typeCache : TypeCache)
    (types : List String) (t e : String) (hmem : t ∈ types)
    (hmiss : cacheGet typeCache t = none) (hfail : fetchType t = .error e) :
    (∃ e1, (renderTypeEffectiveness fetchType typeCache types).settled = Settled.rejected e1) ∧
    (renderTypeEffectiveness fetchType typeCache types).content = TypeMatchupsContent.loading ∧
    cacheGet (renderTypeEffectiveness fetchType typeCache types).typeCache t = none := by
  obtain ⟨h1, h2⟩ := lookupTypes_failed fetchType typeCache t e hfail types typeCache
  obtain ⟨e1, he1⟩ := h2 hmem hmiss
  have hr : renderTypeEffectiveness fetchType typeCache types =
      { typeCache := (lookupTypes fetchType typeCache typeCache types).1
        content := TypeMatchupsContent.loading
        settled := Settled.rejected e1 } := by
    simp only [renderTypeEffectiveness, calculateTypeEffectiveness, he1]
  rw [hr]
  exact ⟨⟨e1, rfl⟩, rfl, h1.trans hmiss⟩

theorem totalPages_eq_ceil (s : State) :
    totalPages s =
      if s.displayedPokemon.length = 0 then 1
      else Nat.ceil ((s.displayedPokemon.length : ℚ) / 20) := by
  unfold totalPages POKEMON_PER_PAGE
  generalize s.displayedPokemon.length = n
  by_cases hn : n = 0
  · subst hn; simp
  · have hk : (n + (20 - 1)) / 20 ≠ 0 := by omega
    simp only [hk, hn, if_false]
    symm
    rw [Nat.ceil_eq_iff hk]
    have h1 : 20 * ((n + (20 - 1)) / 20 - 1) < n := by omega
    have h2 : n ≤ 20 * ((n + (20 - 1)) / 20) := by omega
    generalize (n + (20 - 1)) / 20 = k at *
    have h1q : (20 : ℚ) * ((k - 1 : ℕ) : ℚ) < n := by exact_mod_cast h1
    have h2q : (n : ℚ) ≤ 20 * (k : ℚ) := by exact_mod_cast h2
    constructor
    · rw [lt_div_iff₀ (by norm_num)]; linarith
    · rw [div_le_iff₀ (by norm_num)]; linarith

theorem one_le_totalPages (s : State) : 1 ≤ totalPages s := by
  unfold totalPages
  simp only
  split
  · exact le_refl _
  · rename_i h
    exact Nat.pos_of_ne_zero h

theorem viewInv_initialState (store : Option (List Nat)) : ViewInv (initialState store) := by
  refine ⟨le_refl _, one_le_totalPages _, le_refl _⟩

theorem viewInv_step (toLowerCase : List Char → List Char) (op : Op) (s : State)
    (h : ViewInv s) : ∃ s1, step toLowerCase op s = some s1 ∧ ViewInv s1 := by
  obtain ⟨h1, h2, h3⟩ := h
  cases op with
  | searchPokemon input =>
    exact ⟨_, rfl, le_refl _, one_le_totalPages _, List.length_filter_le _ _⟩
  | filterByType type =>
    refine ⟨_, rfl, le_refl _, one_le_totalPages _, ?_⟩
    simp only [filterByType]
    split
    · exact le_refl _
    · exact List.length_filter_le _ _
  | showFavorites =>
    refine ⟨_, rfl, ?_⟩
    unfold showFavorites
    split
    · exact ⟨h1, h2, h3⟩
    · exact ⟨le_refl _, one_le_totalPages _, List.length_filter_le _ _⟩
  | showAllPokemon =>
    exact ⟨_, rfl, le_refl _, one_le_totalPages _, le_refl _⟩
  | nextPage =>
    refine ⟨_, rfl, ?_⟩
    unfold nextPage
    split
    · rename_i hlt
      refine ⟨by simp only; omega, ?_, h3⟩
      unfold totalPages POKEMON_PER_PAGE at *
      simp only at *
      split <;> omega
    · exact ⟨h1, h2, h3⟩
  | previousPage =>
    refine ⟨_, rfl, ?_⟩
    unfold previousPage
    split
    · rename_i hlt
      refine ⟨by simp only; omega, ?_, h3⟩
      unfold totalPages at *
      simp only at *
      omega
    · exact ⟨h1, h2, h3⟩
  | toggleFavorite id =>
    exact ⟨_, rfl, h1, h2, h3⟩
  | loadPokemonBatch fetch start count =>
    refine ⟨_, loadPokemonBatch_eq fetch start count s, h1, ?_, le_refl _⟩
    unfold totalPages POKEMON_PER_PAGE at *
    simp only [List.length_append] at *
    split at h2 <;> split <;> omega

theorem viewInv_run (toLowerCase : List Char → List Char) (ops : List Op) :
    ∀ s, ViewInv s → ∃ s1, run toLowerCase ops s = some s1 ∧ ViewInv s1 := by
  induction ops with
  | nil => intro s h; exact ⟨s, rfl, h⟩
  | cons op ops ih =>
    intro s h
    obtain ⟨s1, e1, i1⟩ := viewInv_step toLowerCase op s h
    obtain ⟨s2, e2, i2⟩ := ih s1 i1
    exact ⟨s2, by simp [run, e1, e2], i2⟩

/-- Claim C3: from the initial state, every sequence of `searchPokemon`,
`filterByType`, `showFavorites`, `showAllPokemon`, `nextPage`, `previousPage`,
`toggleFavorite` and `loadPokemonBatch` runs to a state with
`1 ≤ currentPage ≤ totalPages`, where `totalPages` is the ceiling of
`displayedPokemon.length / 20`, or `1` for an empty projection. -/
theorem C3_currentPage_within_totalPages (toLowerCase : List Char → List Char)
    (store : Option (List Nat)) (ops : List Op) :
    ∃ s, run toLowerCase ops (initialState store) = some s ∧
      1 ≤ s.currentPage ∧ s.currentPage ≤ totalPages s ∧
      totalPages s =
        (if s.displayedPokemon.length = 0 then 1
         else Nat.ceil ((s.displayedPokemon.length : ℚ) / 20)) := by
  obtain ⟨s, e, h1, h2, _⟩ := viewInv_run toLowerCase ops _ (viewInv_initialState store)
  exact ⟨s, e, h1, h2, totalPages_eq_ceil s⟩

/-- Claim C4: on the last page (`currentPage = totalPages`) `nextPage` leaves the
state unchanged, and on page 1 `previousPage` leaves the state unchanged; in
particular `currentPage` and `displayedPokemon` stay as they are. -/
theorem C4_page_bounds_are_noops (s : State) :
    (s.currentPage = totalPages s → nextPage s = s) ∧
    (s.currentPage = 1 → previousPage s = s) := by
  constructor
  · intro h
    unfold nextPage
    rw [if_neg]
    unfold totalPages POKEMON_PER_PAGE at *
    simp only at h
    split at h <;> omega
  · intro h
    unfold previousPage
    rw [if_neg]
    omega

/-- Witness of C4 on `sampleView`: six records on a single page, which is both the
first and the last. -/
theorem C4_single_page_witness :
    sampleView.currentPage = totalPages sampleView ∧ nextPage sampleView = sampleView ∧
    sampleView.currentPage = 1 ∧ previousPage sampleView = sampleView :=
  ⟨by decide, (C4_page_bounds_are_noops sampleView).1 (by decide),
   by decide, (C4_page_bounds_are_noops sampleView).2 (by decide)⟩

theorem any_eq_iff_mem (l : List String) (type : String) :
    l.any (fun t => t == type) = true ↔ type ∈ l := by
  simp [List.any_eq_true]

theorem applyRelation_eq (type : String) (m : ℚ) (r : DamageRelations) :
    applyRelation type m r = m * relationFactorSpec type r := by
  unfold applyRelation relationFactorSpec
  simp only [any_eq_iff_mem]
  by_cases h1 : type ∈ r.double_damage_from <;> by_cases h2 : type ∈ r.half_damage_from <;>
    by_cases h3 : type ∈ r.no_damage_from <;> simp [h1, h2, h3]

theorem foldl_applyRelation (type : String) (rels : List DamageRelations) :
    ∀ m : ℚ, rels.foldl (applyRelation type) m = m * typeMultiplierSpec rels type := by
  induction rels with
  | nil => intro m; simp [typeMultiplierSpec]
  | cons r rels ih =>
    intro m
    rw [List.foldl_cons, ih, applyRelation_eq]
    simp [typeMultiplierSpec, mul_assoc]

theorem typeMultiplier_eq_spec (rels : List DamageRelations) (type : String) :
    typeMultiplier rels type = typeMultiplierSpec rels type := by
  unfold typeMultiplier
  rw [foldl_applyRelation, one_mul]

theorem dyadic_mul_two (m : ℚ) (h : Dyadic m) : Dyadic (m * 2) := by
  rcases h with h | ⟨n, h | h⟩
  · left; rw [h]; ring
  · right; exact ⟨n + 1, Or.inl (by rw [h]; ring)⟩
  · right
    cases n with
    | zero => exact ⟨1, Or.inl (by rw [h]; norm_num)⟩
    | succ n => exact ⟨n, Or.inr (by rw [h]; field_simp; ring)⟩

theorem dyadic_mul_half (m : ℚ) (h : Dyadic m) : Dyadic (m * (1 / 2)) := by
  rcases h with h | ⟨n, h | h⟩
  · left; rw [h]; ring
  · right
    cases n with
    | zero => exact ⟨1, Or.inr (by rw [h]; norm_num)⟩
    | succ n => exact ⟨n, Or.inl (by rw [h]; field_simp; ring)⟩
  · right; exact ⟨n + 1, Or.inr (by rw [h]; field_simp; ring)⟩

theorem dyadic_applyRelation (type : String) (m : ℚ) (r : DamageRelations) (h : Dyadic m) :
    Dyadic (applyRelation type m r) := by
  unfold applyRelation
  simp only
  have h1 : Dyadic (if r.double_damage_from.any (fun t => t == type) then m * 2 else m) := by
    split
    · exact dyadic_mul_two m h
    · exact h
  have h2 : Dyadic (if r.half_damage_from.any (fun t => t == type)
      then (if r.double_damage_from.any (fun t => t == type) then m * 2 else m) * (1 / 2)
      else (if r.double_damage_from.any (fun t => t == type) then m * 2 else m)) := by
    split
    · exact dyadic_mul_half _ h1
    · exact h1
  split
  · left; ring
  · exact h2

theorem dyadic_foldl (type : String) (rels : List DamageRelations) :
    ∀ m : ℚ, Dyadic m → Dyadic (rels.foldl (applyRelation type) m) := by
  induction rels with
  | nil => intro m h; exact h
  | cons r rels ih =>
    intro m h
    exact ih _ (dyadic_applyRelation type m r h)

theorem dyadic_typeMultiplier (rels : List DamageRelations) (type : String) :
    Dyadic (typeMultiplier rels type) :=
  dyadic_foldl type rels 1 (Or.inr ⟨0, Or.inl (by norm_num)⟩)

theorem dyadic_cases (m : ℚ) (h : Dyadic m) (h1 : m ≠ 1) :
    m ≥ 2 ∨ (0 < m ∧ m < 1) ∨ m = 0 := by
  rcases h with h | ⟨n, h | h⟩
  · exact Or.inr (Or.inr h)
  · left
    cases n with
    | zero => exact absurd (by rw [h]; norm_num) h1
    | succ n =>
      rw [h, pow_succ]
      have : (1 : ℚ) ≤ 2 ^ n := one_le_pow₀ (by norm_num)
      linarith
  · right; left
    cases n with
    | zero => exact absurd (by rw [h]; norm_num) h1
    | succ n =>
      have h2 : (1 : ℚ) ≤ 2 ^ n := one_le_pow₀ (by norm_num)
      have h3 : (0 : ℚ) < 2 ^ (n + 1) := by positivity
      rw [h]
      constructor
      · positivity
      · rw [div_lt_one h3, pow_succ]; linarith

theorem objSet_of_not_mem (key : String) (value : ℚ) :
    ∀ obj : List (String × ℚ), key ∉ objKeys obj → objSet obj key value = obj ++ [(key, value)] := by
  intro obj
  induction obj with
  | nil => intro _; rfl
  | cons e obj ih =>
    intro h
    obtain ⟨k, v⟩ := e
    simp only [objKeys, List.map_cons, List.mem_cons, not_or] at h
    have hk : ¬ k = key := fun e => h.1 e.symm
    simp only [objSet, hk, if_false, List.cons_append]
    rw [ih h.2]

theorem objKeys_filterMap_entry (rels : List DamageRelations) (l : List String) :
    objKeys (l.filterMap (effectivenessEntry rels)) =
      l.filter (fun t => decide (typeMultiplier rels t ≠ 1)) := by
  induction l with
  | nil => rfl
  | cons a l ih =>
    by_cases h : typeMultiplier rels a ≠ 1
    · have e : effectivenessEntry rels a = some (a, typeMultiplier rels a) := by
        simp [effectivenessEntry, h]
      rw [List.filterMap_cons_some e, List.filter_cons_of_pos (by simpa using h)]
      simp only [objKeys, List.map_cons] at ih ⊢
      rw [ih]
    · have e : effectivenessEntry rels a = none := by
        simp only [effectivenessEntry, h, if_false]
      rw [List.filterMap_cons_none e, List.filter_cons_of_neg (by simpa using h)]
      exact ih

theorem foldl_effectiveness (rels : List DamageRelations) :
    ∀ (l : List String) (acc : List (String × ℚ)), l.Nodup → (∀ t ∈ l, t ∉ objKeys acc) →
      l.foldl
        (fun effectiveness type =>
          let multiplier := typeMultiplier rels type
          if multiplier ≠ 1 then objSet effectiveness type multiplier else effectiveness)
        acc = acc ++ l.filterMap (effectivenessEntry rels) := by
  intro l
  induction l with
  | nil => intro acc _ _; simp
  | cons a l ih =>
    intro acc hnd hacc
    rw [List.nodup_cons] at hnd
    rw [List.foldl_cons]
    simp only
    by_cases h : typeMultiplier rels a ≠ 1
    · have e : effectivenessEntry rels a = some (a, typeMultiplier rels a) := by
        simp [effectivenessEntry, h]
      rw [if_pos h, objSet_of_not_mem _ _ _ (hacc a (List.mem_cons_self _ _)), ih _ hnd.2,
        List.filterMap_cons_some e]
      · simp
      · intro t ht
        simp only [objKeys, List.map_append, List.map_cons, List.map_nil, List.mem_append,
          List.mem_singleton, not_or]
        refine ⟨hacc t (List.mem_cons_of_mem _ ht), ?_⟩
        intro e; subst e; exact hnd.1 ht
    · have e : effectivenessEntry rels a = none := by
        simp only [effectivenessEntry, h, if_false]
      rw [if_neg h, ih _ hnd.2 (fun t ht => hacc t (List.mem_cons_of_mem _ ht)),
        List.filterMap_cons_none e]

theorem allTypes_nodup : allTypes.Nodup := by decide

theorem effectivenessObject_eq (rels : List DamageRelations) :
    effectivenessObject rels = allTypes.filterMap (effectivenessEntry rels) := by
  unfold effectivenessObject
  rw [foldl_effectiveness rels allTypes [] allTypes_nodup (by simp [objKeys])]
  simp

theorem objGet_filterMap_entry (rels : List DamageRelations) (t : String) :
    ∀ l : List String, t ∈ l → typeMultiplier rels t ≠ 1 →
      objGet (l.filterMap (effectivenessEntry rels)) t = some (typeMultiplier rels t) := by
  intro l
  induction l with
  | nil => intro h; simp at h
  | cons a l ih =>
    intro hmem hne
    by_cases ha : a = t
    · subst ha
      have e : effectivenessEntry rels a = some (a, typeMultiplier rels a) := by
        simp [effectivenessEntry, hne]
      rw [List.filterMap_cons_some e]
      simp [objGet]
    · have hl : t ∈ l := by
        rcases List.mem_cons.mp hmem with h | h
        · exact absurd h.symm ha
        · exact h
      by_cases h : typeMultiplier rels a ≠ 1
      · have e : effectivenessEntry rels a = some (a, typeMultiplier rels a) := by
          simp [effectivenessEntry, h]
        rw [List.filterMap_cons_some e]
        simp only [objGet, ha, if_false]
        exact ih hl hne
      · have e : effectivenessEntry rels a = none := by
          simp only [effectivenessEntry, h, if_false]
        rw [List.filterMap_cons_none e]
        exact ih hl hne

/-- Membership in a list that `calculateTypeEffectiveness` returns: a key of
`effectiveness` whose value passes the test. -/
theorem mem_filter_effectiveness (rels : List DamageRelations) (pred : ℚ → Bool) (t : String) :
    t ∈ (objKeys (effectivenessObject rels)).filter
        (testEntry (effectivenessObject rels) pred) ↔
      t ∈ allTypes ∧ typeMultiplier rels t ≠ 1 ∧ pred (typeMultiplier rels t) = true := by
  rw [List.mem_filter, effectivenessObject_eq, objKeys_filterMap_entry, List.mem_filter]
  unfold testEntry
  constructor
  · rintro ⟨⟨h1, h2⟩, h3⟩
    have h2 : typeMultiplier rels t ≠ 1 := by simpa using h2
    rw [objGet_filterMap_entry rels t allTypes h1 h2] at h3
    exact ⟨h1, h2, h3⟩
  · rintro ⟨h1, h2, h3⟩
    rw [objGet_filterMap_entry rels t allTypes h1 h2]
    exact ⟨⟨h1, by simpa using h2⟩, h3⟩

theorem mem_weaknesses (rels : List DamageRelations) (t : String) :
    t ∈ (effectivenessOfRelations rels).weaknesses ↔
      t ∈ allTypes ∧ typeMultiplier rels t ≥ 2 := by
  unfold effectivenessOfRelations
  simp only
  rw [mem_filter_effectiveness]
  constructor
  · rintro ⟨h1, _, h3⟩; exact ⟨h1, by simpa using h3⟩
  · rintro ⟨h1, h3⟩
    refine ⟨h1, ?_, by simpa using h3⟩
    intro h; rw [h] at h3; norm_num at h3

theorem mem_resistances (rels : List DamageRelations) (t : String) :
    t ∈ (effectivenessOfRelations rels).resistances ↔
      t ∈ allTypes ∧ 0 < typeMultiplier rels t ∧ typeMultiplier rels t < 1 := by
  unfold effectivenessOfRelations
  simp only
  rw [mem_filter_effectiveness]
  constructor
  · rintro ⟨h1, _, h3⟩; exact ⟨h1, by simpa using h3⟩
  · rintro ⟨h1, h3⟩
    refine ⟨h1, ?_, by simpa using h3⟩
    intro h; rw [h] at h3; exact lt_irrefl _ h3.2

theorem mem_immunities (rels : List DamageRelations) (t : String) :
    t ∈ (effectivenessOfRelations rels).immunities ↔
      t ∈ allTypes ∧ typeMultiplier rels t = 0 := by
  unfold effectivenessOfRelations
  simp only
  rw [mem_filter_effectiveness]
  constructor
  · rintro ⟨h1, _, h3⟩; exact ⟨h1, by simpa using h3⟩
  · rintro ⟨h1, h3⟩
    refine ⟨h1, ?_, by simpa using h3⟩
    intro h; rw [h] at h3; norm_num at h3

/-- Claim C5: the multiplier computed by `calculateTypeEffectiveness` is the product
over the relations of the factors `2`, `1/2`, `0` (`1` otherwise).  For a dual-type
record and a canonical attacking type `t`: listed in `double_damage_from` of both
relations and in no half/no-damage list, `t` has multiplier `4` and is a weakness;
listed in `no_damage_from` of exactly one relation, `t` has multiplier `0` and is an
immunity, whatever the other relation lists. -/
theorem C5_multiplicative_effectiveness (r1 r2 : DamageRelations) (t : String)
    (ht : t ∈ allTypes) :
    (∀ (rels : List DamageRelations) (type : String),
      typeMultiplier rels type = typeMultiplierSpec rels type) ∧
    (t ∈ r1.double_damage_from ∧ t ∈ r2.double_damage_from ∧
      t ∉ r1.half_damage_from ∧ t ∉ r2.half_damage_from ∧
      t ∉ r1.no_damage_from ∧ t ∉ r2.no_damage_from →
        typeMultiplier [r1, r2] t = 4 ∧
        t ∈ (effectivenessOfRelations [r1, r2]).weaknesses) ∧
    ((t ∈ r1.no_damage_from ∧ t ∉ r2.no_damage_from) ∨
      (t ∉ r1.no_damage_from ∧ t ∈ r2.no_damage_from) →
        typeMultiplier [r1, r2] t = 0 ∧
        t ∈ (effectivenessOfRelations [r1, r2]).immunities) := by
  refine ⟨typeMultiplier_eq_spec, ?_, ?_⟩
  · rintro ⟨h1, h2, h3, h4, h5, h6⟩
    have hm : typeMultiplier [r1, r2] t = 4 := by
      rw [typeMultiplier_eq_spec]
      simp [typeMultiplierSpec, relationFactorSpec, h1, h2, h3, h4, h5, h6]
      norm_num
    refine ⟨hm, (mem_weaknesses _ t).mpr ⟨ht, ?_⟩⟩
    rw [hm]; norm_num
  · intro h
    have hm : typeMultiplier [r1, r2] t = 0 := by
      rw [typeMultiplier_eq_spec]
      rcases h with ⟨h1, _⟩ | ⟨_, h2⟩
      · simp [typeMultiplierSpec, relationFactorSpec, h1]
      · simp [typeMultiplierSpec, relationFactorSpec, h2]
    exact ⟨hm, (mem_immunities _ t).mpr ⟨ht, hm⟩⟩

/-- Witness of C5 on the types `fire` and `flying`: `rock` is doubled by both, and
`ground` is doubled by `fire` and without effect on `flying`. -/
theorem C5_fire_flying_witness :
    (typeMultiplier [fireRelations, flyingRelations] "rock" = 4 ∧
      "rock" ∈ (effectivenessOfRelations [fireRelations, flyingRelations]).weaknesses) ∧
    (typeMultiplier [fireRelations, flyingRelations] "ground" = 0 ∧
      "ground" ∈ (effectivenessOfRelations [fireRelations, flyingRelations]).immunities) :=
  ⟨(C5_multiplicative_effectiveness fireRelations flyingRelations "rock" (by decide)).2.1
      (by decide),
   (C5_multiplicative_effectiveness fireRelations flyingRelations "ground" (by decide)).2.2
      (Or.inr (by decide))⟩

/-- Claim C6: for every list of relations the three lists returned by
`calculateTypeEffectiveness` are the canonical types with multiplier `≥ 2`, with
multiplier in `(0, 1)`, and with multiplier `0`; they are pairwise disjoint, every
canonical type whose multiplier is not `1` is in one of them, no type with multiplier
`1` and no type outside the canonical ones is in any, and none lists a type twice. -/
theorem C6_effectiveness_partition (rels : List DamageRelations) :
    (∀ t, t ∈ (effectivenessOfRelations rels).weaknesses ↔
      t ∈ allTypes ∧ typeMultiplier rels t ≥ 2) ∧
    (∀ t, t ∈ (effectivenessOfRelations rels).resistances ↔
      t ∈ allTypes ∧ 0 < typeMultiplier rels t ∧ typeMultiplier rels t < 1) ∧
    (∀ t, t ∈ (effectivenessOfRelations rels).immunities ↔
      t ∈ allTypes ∧ typeMultiplier rels t = 0) ∧
    (∀ t, ¬ (t ∈ (effectivenessOfRelations rels).weaknesses ∧
      t ∈ (effectivenessOfRelations rels).resistances)) ∧
    (∀ t, ¬ (t ∈ (effectivenessOfRelations rels).weaknesses ∧
      t ∈ (effectivenessOfRelations rels).immunities)) ∧
    (∀ t, ¬ (t ∈ (effectivenessOfRelations rels).resistances ∧
      t ∈ (effectivenessOfRelations rels).immunities)) ∧
    (∀ t, t ∈ allTypes → typeMultiplier rels t ≠ 1 →
      t ∈ (effectivenessOfRelations rels).weaknesses ∨
      t ∈ (effectivenessOfRelations rels).resistances ∨
      t ∈ (effectivenessOfRelations rels).immunities) ∧
    (∀ t, t ∈ (effectivenessOfRelations rels).weaknesses ∨
      t ∈ (effectivenessOfRelations rels).resistances ∨
      t ∈ (effectivenessOfRelations rels).immunities →
        t ∈ allTypes ∧ typeMultiplier rels t ≠ 1) ∧
    (effectivenessOfRelations rels).weaknesses.Nodup ∧
    (effectivenessOfRelations rels).resistances.Nodup ∧
    (effectivenessOfRelations rels).immunities.Nodup := by
  have hkeys : (objKeys (effectivenessObject rels)).Nodup := by
    rw [effectivenessObject_eq, objKeys_filterMap_entry]
    exact allTypes_nodup.filter _
  refine ⟨mem_weaknesses rels, mem_resistances rels, mem_immunities rels, ?_, ?_, ?_, ?_, ?_,
    hkeys.filter _, hkeys.filter _, hkeys.filter _⟩
  · rintro t ⟨h1, h2⟩
    rw [mem_weaknesses] at h1
    rw [mem_resistances] at h2
    linarith [h1.2, h2.2.2]
  · rintro t ⟨h1, h2⟩
    rw [mem_weaknesses] at h1
    rw [mem_immunities] at h2
    linarith [h1.2, h2.2]
  · rintro t ⟨h1, h2⟩
    rw [mem_resistances] at h1
    rw [mem_immunities] at h2
    linarith [h1.2.1, h2.2]
  · intro t ht hne
    rw [mem_weaknesses, mem_resistances, mem_immunities]
    rcases dyadic_cases _ (dyadic_typeMultiplier rels t) hne with h | h | h
    · exact Or.inl ⟨ht, h⟩
    · exact Or.inr (Or.inl ⟨ht, h⟩)
    · exact Or.inr (Or.inr ⟨ht, h⟩)
  · intro t h
    rw [mem_weaknesses, mem_resistances, mem_immunities] at h
    rcases h with ⟨h1, h2⟩ | ⟨h1, h2, h3⟩ | ⟨h1, h2⟩
    · exact ⟨h1, fun e => by rw [e] at h2; norm_num at h2⟩
    · exact ⟨h1, fun e => by rw [e] at h3; exact lt_irrefl _ h3⟩
    · exact ⟨h1, fun e => by rw [e] at h2; norm_num at h2⟩

/-- The function `includes` decides the substring relation: `q` is a contiguous
block of `s`. -/
theorem includes_iff_infix (s q : List Char) : includes s q = true ↔ q <:+: s := by
  unfold includes
  rw [List.any_eq_true]
  constructor
  · rintro ⟨t, ht, hp⟩
    rw [List.mem_tails] at ht
    rw [List.isPrefixOf_iff_prefix] at hp
    exact List.infix_iff_prefix_suffix.mpr ⟨t, hp, ht⟩
  · intro h
    obtain ⟨t, hp, ht⟩ := List.infix_iff_prefix_suffix.mp h
    exact ⟨t, (List.mem_tails _ _).mpr ht, List.isPrefixOf_iff_prefix.mpr hp⟩

/-- The function `trim` removes a leading and a trailing block of white space, and
what is left neither starts nor ends with white space. -/
theorem trim_spec (s : List Char) :
    (∃ pre post, s = pre ++ trim s ++ post ∧
      (∀ c ∈ pre, isTrimChar c = true) ∧ (∀ c ∈ post, isTrimChar c = true)) ∧
    (∀ c, (trim s).head? = some c → isTrimChar c = false) ∧
    (∀ c, (trim s).getLast? = some c → isTrimChar c = false) := by
  have hd : s.dropWhile isTrimChar =
      trim s ++ ((s.dropWhile isTrimChar).reverse.takeWhile isTrimChar).reverse := by
    have h := List.takeWhile_append_dropWhile isTrimChar (s.dropWhile isTrimChar).reverse
    have h2 := congrArg List.reverse h
    rw [List.reverse_append, List.reverse_reverse] at h2
    exact h2.symm
  have hnot : ∀ (l : List Char) (c : Char),
      (l.dropWhile isTrimChar).head? = some c → isTrimChar c = false := by
    intro l c hc
    have h := List.head?_dropWhile_not isTrimChar l
    rw [hc] at h
    exact h
  refine ⟨⟨s.takeWhile isTrimChar,
    ((s.dropWhile isTrimChar).reverse.takeWhile isTrimChar).reverse, ?_, ?_, ?_⟩, ?_, ?_⟩
  · rw [List.append_assoc, ← hd, List.takeWhile_append_dropWhile]
  · intro c hc
    exact (List.mem_takeWhile_imp hc)
  · intro c hc
    exact List.mem_takeWhile_imp (List.mem_reverse.mp hc)
  · intro c hc
    apply hnot s c
    rw [hd]
    cases ht : trim s with
    | nil => rw [ht] at hc; simp at hc
    | cons a rest => rw [ht] at hc; simpa using hc
  · intro c hc
    apply hnot (s.dropWhile isTrimChar).reverse c
    unfold trim at hc
    rw [List.getLast?_reverse] at hc
    exact hc

/-- Counterexample to C7 as stated: on the catalog holding `pikachu`, the input
"pika " (with a trailing space) projects to `pikachu`, because the script trims the
query, while no name and no decimal id string contains "pika " as typed.  All the
strings involved are ASCII, on which the host lower-casing is `asciiToLowerCase`. -/
theorem C7_trailing_space_counterexample :
    (searchPokemon asciiToLowerCase "pika " pikachuOnly).displayedPokemon = [pikachu] ∧
    searchProjectionSpec asciiToLowerCase pikachuOnly.allPokemon "pika " = [] ∧
    (searchPokemon asciiToLowerCase "pika " pikachuOnly).displayedPokemon ≠
      searchProjectionSpec asciiToLowerCase pikachuOnly.allPokemon "pika " := by
  decide

/-- Claim C7, amended: whatever function `String.prototype.toLowerCase` is, two inputs
that differ only in letter case (equal once lower-cased) give the same projection;
the projection is the catalog-order subsequence of the records whose lower-cased
name, or whose decimal id string, contains as a contiguous block the input lower-cased
and trimmed of surrounding white space (the lower-cased input is that block between
two runs of white space, and the block neither starts nor ends with white space);
`currentPage` becomes `1`; and running the same search again changes nothing. -/
theorem C7_search_case_insensitive_idempotent (toLowerCase : List Char → List Char)
    (s : State) (q1 q2 : String)
    (hcase : toLowerCase q1.data = toLowerCase q2.data) :
    (searchPokemon toLowerCase q1 s).displayedPokemon =
      (searchPokemon toLowerCase q2 s).displayedPokemon ∧
    (searchPokemon toLowerCase q1 s).displayedPokemon.Sublist s.allPokemon ∧
    (∀ p, p ∈ (searchPokemon toLowerCase q1 s).displayedPokemon ↔
      p ∈ s.allPokemon ∧
        (normalizedQuery toLowerCase q1 <:+: toLowerCase p.name.data ∨
         normalizedQuery toLowerCase q1 <:+: idToString p.id)) ∧
    (∃ pre post,
      toLowerCase q1.data = pre ++ normalizedQuery toLowerCase q1 ++ post ∧
      (∀ c ∈ pre, isTrimChar c = true) ∧ (∀ c ∈ post, isTrimChar c = true)) ∧
    (∀ c, (normalizedQuery toLowerCase q1).head? = some c → isTrimChar c = false) ∧
    (∀ c, (normalizedQuery toLowerCase q1).getLast? = some c → isTrimChar c = false) ∧
    (searchPokemon toLowerCase q1 s).currentPage = 1 ∧
    searchPokemon toLowerCase q1 (searchPokemon toLowerCase q1 s) =
      searchPokemon toLowerCase q1 s := by
  obtain ⟨t1, t2, t3⟩ := trim_spec (toLowerCase q1.data)
  refine ⟨?_, List.filter_sublist _, ?_, t1, t2, t3, rfl, rfl⟩
  · simp only [searchPokemon, hcase]
  · intro p
    simp only [searchPokemon, List.mem_filter, matchesQuery, normalizedQuery, Bool.or_eq_true,
      includes_iff_infix]

/-- Witness of C7 on the inputs "PIKA" and "pika" over the catalog holding
`pikachu`, with the lower-casing of ASCII text. -/
theorem C7_pika_witness :
    asciiToLowerCase "PIKA".data = asciiToLowerCase "pika".data ∧
    (searchPokemon asciiToLowerCase "PIKA" pikachuOnly).displayedPokemon =
      (searchPokemon asciiToLowerCase "pika" pikachuOnly).displayedPokemon ∧
    (searchPokemon asciiToLowerCase "PIKA" pikachuOnly).displayedPokemon = [pikachu] :=
  ⟨by decide,
   (C7_search_case_insensitive_idempotent asciiToLowerCase pikachuOnly "PIKA" "pika"
      (by decide)).1,
   by decide⟩

theorem toggleInList_eq (id : Nat) (l : List Nat) :
    toggleInList id l = if id ∈ l then l.erase id else l ++ [id] := by
  induction l with
  | nil => rfl
  | cons a l ih =>
    unfold toggleInList at ih ⊢
    by_cases ha : a = id
    · subst ha
      simp [List.indexOf?, List.findIdx?_cons]
    · have hne : ¬ id = a := fun e => ha e.symm
      simp only [List.indexOf?, List.findIdx?_cons, beq_iff_eq, ha, if_false, List.mem_cons, hne,
        false_or] at ih ⊢
      rw [List.findIdx?_succ]
      rw [List.erase_cons_tail (by simpa using ha)]
      cases hf : List.findIdx? (fun x => x == id) l with
      | none =>
        rw [hf] at ih
        simp only [Option.map_none'] at ih ⊢
        split
        · rename_i hm; rw [if_pos hm] at ih; rw [← ih]; rfl
        · rfl
      | some i =>
        rw [hf] at ih
        simp only [Option.map_some', List.eraseIdx_cons_succ] at ih ⊢
        split
        · rename_i hm; rw [if_pos hm] at ih; rw [ih]
        · rename_i hm; rw [if_neg hm] at ih; rw [ih]; rfl

theorem mem_toggleInList (id j : Nat) (l : List Nat) (hnd : l.Nodup) :
    j ∈ toggleInList id l ↔ (if j = id then j ∉ l else j ∈ l) := by
  rw [toggleInList_eq]
  by_cases hm : id ∈ l
  · rw [if_pos hm, hnd.mem_erase_iff]
    by_cases hj : j = id
    · subst hj; simp [hm]
    · simp [hj]
  · rw [if_neg hm, List.mem_append, List.mem_singleton]
    by_cases hj : j = id
    · subst hj; simp [hm]
    · simp [hj]

theorem nodup_toggleInList (id : Nat) (l : List Nat) (hnd : l.Nodup) :
    (toggleInList id l).Nodup := by
  rw [toggleInList_eq]
  split
  · exact hnd.erase _
  · rename_i hm
    exact List.Nodup.append hnd (List.nodup_singleton _) (by simpa using hm)

theorem toggleTimes_even (id : Nat) :
    ∀ (n : Nat) (s : State), s.favorites.Nodup →
      (toggleTimes id (2 * n) s).favorites.Nodup ∧
      ∀ j, j ∈ (toggleTimes id (2 * n) s).favorites ↔ j ∈ s.favorites := by
  intro n
  induction n with
  | zero => intro s h; exact ⟨h, fun _ => Iff.rfl⟩
  | succ n ih =>
    intro s h
    have e : 2 * (n + 1) = (2 * n + 1) + 1 := by ring
    rw [e]
    simp only [toggleTimes]
    have h1 := nodup_toggleInList id s.favorites h
    have h2 := nodup_toggleInList id _ h1
    obtain ⟨i1, i2⟩ := ih (toggleFavorite id (toggleFavorite id s)) h2
    refine ⟨i1, fun j => (i2 j).trans ?_⟩
    simp only [toggleFavorite]
    rw [mem_toggleInList id j _ h1]
    by_cases hj : j = id
    · subst hj
      rw [if_pos rfl, mem_toggleInList j j _ h, if_pos rfl, not_not]
    · rw [if_neg hj, mem_toggleInList id j _ h, if_neg hj]

/-- Counterexample to C8 as stated: with the stored list `[25, 25]`, `toggleFavorite(25)`
removes the first occurrence only, so `25` is a favorite before and after. -/
theorem C8_duplicate_counterexample :
    (toggleFavorite 25 (initialState (some [25, 25]))).favorites = [25] ∧
    ¬ (25 ∈ (toggleFavorite 25 (initialState (some [25, 25]))).favorites ↔
        25 ∉ (initialState (some [25, 25])).favorites) := by
  decide

/-- Claim C8, amended: for every favorites list without a repeated id,
`toggleFavorite(id)` flips the membership of `id`, changes the membership of no other
id, writes the new list to the store, and keeps the list free of repetitions; hence
toggling an absent id makes a reload of the store contain it, toggling again removes
it, and any even number of toggles of the same id restores the original membership.
The catalog, the projection, the page and the search input are untouched. -/
theorem C8_toggleFavorite_flips_membership (s : State) (id : Nat)
    (hnd : s.favorites.Nodup) :
    (id ∈ (toggleFavorite id s).favorites ↔ id ∉ s.favorites) ∧
    (∀ j, j ≠ id → (j ∈ (toggleFavorite id s).favorites ↔ j ∈ s.favorites)) ∧
    (toggleFavorite id s).store = some (toggleFavorite id s).favorites ∧
    (toggleFavorite id s).favorites.Nodup ∧
    (id ∉ s.favorites →
      id ∈ loadFavorites (toggleFavorite id s).store ∧
      id ∉ loadFavorites (toggleFavorite id (toggleFavorite id s)).store) ∧
    (∀ n j, j ∈ (toggleTimes id (2 * n) s).favorites ↔ j ∈ s.favorites) ∧
    (toggleFavorite id s).displayedPokemon = s.displayedPokemon ∧
    (toggleFavorite id s).currentPage = s.currentPage ∧
    (toggleFavorite id s).searchInput = s.searchInput ∧
    (toggleFavorite id s).allPokemon = s.allPokemon := by
  have h1 := nodup_toggleInList id s.favorites hnd
  refine ⟨?_, ?_, rfl, h1, ?_, fun n => (toggleTimes_even id n s hnd).2, rfl, rfl, rfl, rfl⟩
  · simp only [toggleFavorite]
    rw [mem_toggleInList id id _ hnd, if_pos rfl]
  · intro j hj
    simp only [toggleFavorite]
    rw [mem_toggleInList id j _ hnd, if_neg hj]
  · intro hm
    simp only [toggleFavorite, loadFavorites]
    rw [mem_toggleInList id id _ h1, if_pos rfl, not_not, mem_toggleInList id id _ hnd,
      if_pos rfl]
    exact ⟨hm, hm⟩

/-- Witness of C8 on the stored list `[1, 4]` and the id `25`. -/
theorem C8_toggle_25_witness :
    (initialState (some [1, 4])).favorites.Nodup ∧
    (25 ∈ (toggleFavorite 25 (initialState (some [1, 4]))).favorites ↔
      25 ∉ (initialState (some [1, 4])).favorites) ∧
    (toggleFavorite 25 (initialState (some [1, 4]))).store = some [1, 4, 25] ∧
    (toggleFavorite 25 (toggleFavorite 25 (initialState (some [1, 4])))).store = some [1, 4] :=
  ⟨by decide,
   (C8_toggleFavorite_flips_membership (initialState (some [1, 4])) 25 (by decide)).1,
   by decide, by decide⟩

theorem walkChain_eq : ∀ (c : ChainLink) (chain : List String),
    walkChain c chain = chain ++ firstBranchPath c
  | .mk species [], chain => by simp [walkChain, firstBranchPath]
  | .mk species (next :: rest), chain => by
    have ih := walkChain_eq next (chain ++ [species])
    simp [walkChain, firstBranchPath, ih]

theorem intercalate_singletons (sep : EvolutionPiece) (l : List EvolutionPiece) :
    List.intercalate [sep] (l.map (fun x => [x])) = List.intersperse sep l := by
  induction l with
  | nil => rfl
  | cons a l ih =>
    cases l with
    | nil => rfl
    | cons b l =>
      simp only [List.intercalate, List.map_cons, List.intersperse, List.flatten_cons,
        List.singleton_append] at ih ⊢
      rw [ih]

theorem count_arrow_intersperse (records : List Record) :
    (List.intersperse EvolutionPiece.arrow (records.map EvolutionPiece.card)).count
      EvolutionPiece.arrow = records.length - 1 := by
  induction records with
  | nil => rfl
  | cons a l ih =>
    cases l with
    | nil => rfl
    | cons b l =>
      simp only [List.map_cons, List.intersperse, List.length_cons] at ih ⊢
      rw [List.count_cons_of_ne (by simp), List.count_cons_self, ih]
      simp

theorem evolutionCard_of_find (allPokemon : List Record) :
    ∀ (names : List String) (records : List Record),
      names.map (fun name => allPokemon.find? (fun p => p.name = name)) = records.map some →
      names.map (evolutionCard allPokemon) =
        (records.map EvolutionPiece.card).map (fun x => [x]) ∧
      records.map (fun p => p.name) = names := by
  intro names
  induction names with
  | nil =>
    intro records h
    cases records with
    | nil => exact ⟨rfl, rfl⟩
    | cons r rs => simp at h
  | cons n names ih =>
    intro records h
    cases records with
    | nil => simp at h
    | cons r rs =>
      simp only [List.map_cons, List.cons.injEq] at h ⊢
      obtain ⟨h1, h2⟩ := ih rs h.2
      have hn : r.name = n := by
        have := List.find?_some h.1
        simpa using this
      refine ⟨⟨?_, h1⟩, hn, h2⟩
      simp [evolutionCard, h.1]

/-- Claim C9: for every chain tree the walk of `renderEvolutionChain` (a total
function on the tree) accumulates the species names of the first-branch path from the
root, in order.  In a detail view that was opened (its record is loaded) and whose two
remote calls succeeded: a path of exactly one name gives "does not evolve"; a path of
`n ≥ 2` names that all match a loaded record by name gives the cards of those `n`
records in chain order with an arrow between consecutive ones, `n - 1` arrows in all. -/
theorem C9_evolution_chain_outcome
    (fetchSpecies : Nat → Except String SpeciesData)
    (fetchChain : String → Except String ChainLink)
    (fetchType : String → Except String (Option DamageRelations))
    (typeCache : TypeCache) (allPokemon : List Record) (id : Nat)
    (url : String) (root : ChainLink) (view : DetailView)
    (hview : showPokemonDetails fetchSpecies fetchChain fetchType typeCache allPokemon id
      = some view)
    (hspecies : fetchSpecies id = .ok { evolution_chain := some url })
    (hchain : fetchChain url = .ok root) :
    walkChain root [] = firstBranchPath root ∧
    ((firstBranchPath root).length = 1 →
      view.evolution.content = EvolutionContent.doesNotEvolve view.pokemon.name) ∧
    (∀ records : List Record,
      2 ≤ (firstBranchPath root).length →
      (firstBranchPath root).map (fun name => allPokemon.find? (fun p => p.name = name))
        = records.map some →
      view.evolution.content =
          EvolutionContent.chain
            (List.intersperse EvolutionPiece.arrow (records.map EvolutionPiece.card)) ∧
        records.map (fun p => p.name) = firstBranchPath root ∧
        (List.intersperse EvolutionPiece.arrow (records.map EvolutionPiece.card)).count
          EvolutionPiece.arrow = (firstBranchPath root).length - 1) ∧
    view.evolution.settled = Settled.fulfilled := by
  have hw : walkChain root [] = firstBranchPath root := by
    rw [walkChain_eq]; rfl
  unfold showPokemonDetails at hview
  cases hfind : allPokemon.find? (fun p => decide (p.id = id)) with
  | none => rw [hfind] at hview; simp at hview
  | some pokemon =>
    rw [hfind] at hview
    simp only [Option.some.injEq] at hview
    have hid : pokemon.id = id := by
      have := List.find?_some hfind
      simpa using this
    subst hview
    simp only [hid]
    refine ⟨hw, ?_, ?_, ?_⟩
    · intro hlen
      simp [renderEvolutionChain, renderEvolutionChainTry, hspecies, hchain, hw, hlen, hfind]
    · intro records hlen hrec
      obtain ⟨h1, h2⟩ := evolutionCard_of_find allPokemon _ records hrec
      have hlen1 : 1 < (firstBranchPath root).length := hlen
      refine ⟨?_, h2, ?_⟩
      · simp only [renderEvolutionChain, renderEvolutionChainTry, hspecies, hchain, hw, hlen1,
          gt_iff_lt, if_true, h1, intercalate_singletons]
      · rw [count_arrow_intersperse, ← h2, List.length_map]
    · unfold renderEvolutionChain
      split <;> rfl

/-- Witness of C9 on the sample catalog: the three-stage chain of `bulbasaur`, and
the single-stage chain of `tauros`. -/
theorem C9_bulbasaur_tauros_witness :
    (renderEvolutionChain sampleFetchSpecies sampleFetchChain sampleCatalog 1).content =
      EvolutionContent.chain
        [EvolutionPiece.card bulbasaur, EvolutionPiece.arrow, EvolutionPiece.card ivysaur,
         EvolutionPiece.arrow, EvolutionPiece.card venusaur] ∧
    (renderEvolutionChain sampleFetchSpecies sampleFetchChain sampleCatalog 128).content =
      EvolutionContent.doesNotEvolve "tauros" :=
  ⟨((C9_evolution_chain_outcome sampleFetchSpecies sampleFetchChain failingFetchType []
        sampleCatalog 1 "evolution-chain/1" bulbasaurChain
        { pokemon := bulbasaur
          evolution := renderEvolutionChain sampleFetchSpecies sampleFetchChain sampleCatalog 1
          typeMatchups := renderTypeEffectiveness failingFetchType [] bulbasaur.types }
        (by decide) (by rfl) (by rfl)).2.2.1
      [bulbasaur, ivysaur, venusaur] (by decide) (by decide)).1,
   (C9_evolution_chain_outcome sampleFetchSpecies sampleFetchChain failingFetchType []
        sampleCatalog 128 "evolution-chain/65" taurosChain
        { pokemon := tauros
          evolution := renderEvolutionChain sampleFetchSpecies sampleFetchChain sampleCatalog 128
          typeMatchups := renderTypeEffectiveness failingFetchType [] tauros.types }
        (by decide) (by rfl) (by rfl)).2.1 (by decide)⟩

end Pokedex
